import Mathlib

/-!
Verification of the ged2doc core against its specification.

The definitions below are shallow embeddings of the Python sources:
`src/ged2doc/utils.py` (sizing utility) and `src/ged2doc/latex_writer.py`
(configuration normalization, tree layout engine, name statistics).
Machine floats of the source are modelled by exact rationals; code that can
raise a Python exception is modelled in `Option`, with `none` standing for a
raised exception.
-/

namespace Ged2doc

/-- Shallow embedding of `utils.resize` (src/ged2doc/utils.py, lines 7-34).
Boxes are pairs `(width, height)` of rationals.  the Python `ZeroDivisionError`
is modelled by `none`: the guards reproduce exactly the two divisions of the
source (`(h * size[0]) / size[1]` and `(w * size[1]) / size[0]`). -/
def resize (size max_size : ℚ × ℚ) (reduce_only : Bool) : Option (ℚ × ℚ) :=
  if reduce_only = true ∧ size.1 ≤ max_size.1 ∧ size.2 ≤ max_size.2 then some size
  else if size.2 = 0 then none
  else
    let h := max_size.2
    let w := (h * size.1) / size.2
    if w > max_size.1 then
      if size.1 = 0 then none
      else some (max_size.1, (max_size.1 * size.2) / size.1)
    else some (w, h)

/-- The fixed list of supported paper formats
(src/ged2doc/latex_writer.py, lines 91-100). -/
def supportedFormats : List String :=
  ["a0paper", "a1paper", "a2paper", "a3paper",
   "a4paper", "a5paper", "a6paper",
   "b0paper", "b1paper", "b2paper", "b3paper",
   "b4paper", "b5paper", "b6paper",
   "c0paper", "c1paper", "c2paper", "c3paper",
   "c4paper", "c5paper", "c6paper",
   "b0j", "b1j", "b2j", "b3j", "b4j", "b5j", "b6j",
   "ansiapaper", "ansibpaper", "ansicpaper",
   "ansidpaper", "ansiepaper", "letterpaper",
   "executivepaper", "legalpaper"]

/-- The fixed list of supported page layouts
(src/ged2doc/latex_writer.py, line 101). -/
def supportedOrientations : List String := ["portrait", "landscape"]

/-- The configuration fields of `LatexWriter` relevant to construction-time
normalization. -/
structure LatexConfig where
  paper_format : String
  paper_orientation : String
  tree_scale : ℚ
deriving DecidableEq

/-- Shallow embedding of the normalization part of `LatexWriter.__init__`
(src/ged2doc/latex_writer.py, lines 108-119): an unsupported paper format
falls back to a4paper, an unsupported page layout falls back to portrait, and
the tree scale is clamped, first from above at 2.0 and then from below at
0.01.  The float conversion of the source is modelled by taking a rational
argument. -/
def latexWriterInit (paper_format paper_orientation : String)
    (tree_scale : ℚ) : LatexConfig :=
  let pf := if paper_format ∈ supportedFormats then paper_format else ("a4paper")
  let po := if paper_orientation ∈ supportedOrientations then paper_orientation
            else ("portrait")
  let ts := if tree_scale > 2 then 2 else tree_scale
  let ts := if ts < 1 / 100 then 1 / 100 else ts
  { paper_format := pf, paper_orientation := po, tree_scale := ts }

/-- How the `output` constructor argument was supplied: an already-open
object with a `write` attribute, or a file-system path
(src/ged2doc/latex_writer.py, lines 123-128). -/
inductive OutputKind where
  | stream : OutputKind
  | path : OutputKind
deriving DecidableEq

/-- The `_close` flag set by `LatexWriter.__init__`
(src/ged2doc/latex_writer.py, lines 123-128): an output with a `write`
attribute is adopted without ownership, a path is opened by the writer
itself. -/
def initCloseFlag : OutputKind → Bool
  | OutputKind.stream => false
  | OutputKind.path => true

/-- Whether `LatexWriter._finalize` closes the output
(src/ged2doc/latex_writer.py, lines 384-392): the output is closed exactly
when the `_close` flag is set. -/
def finalizeClosesOutput (close : Bool) : Bool := close

/-- Outcome of one document-generation run. -/
inductive RunOutcome where
  | success : RunOutcome
  | failure : RunOutcome
deriving DecidableEq

/-- Modelled from the spec: `writer.Writer.save` (module `ged2doc/writer.py`
is not under `src/`).  Per the spec, a run is a single synchronous pass that
ends by calling `_finalize` on success, and on failure "the output
destination is a scoped resource: if the orchestrator itself opened it (given
a path), it must guarantee closure on every exit path, success or failure; if
the caller supplied an already-open writable stream, the orchestrator must
not close it".  The success branch closes via `_finalize` exactly as the
source does; the failure branch follows the scoped-resource rule of the spec. -/
def outputClosedAtExit (k : OutputKind) : RunOutcome → Bool
  | RunOutcome.success => finalizeClosesOutput (initCloseFlag k)
  | RunOutcome.failure => initCloseFlag k

/-- A view of a `ged4py` individual record, with the fields the LaTeX writer
reads: unique id, the `SEX` value, name parts, and the list of ids of the
spousal families (`FAMS` links) in native order. -/
structure Person where
  xref_id : Nat
  sex : String
  firstName : String
  surname : String
  fams : List Nat
deriving DecidableEq

/-- A view of a `ged4py` family record: the ids of its spouse references
(up to two) and the ids of its child references (`CHIL`) in native order. -/
structure Family where
  spouses : List Nat
  chil : List Nat
deriving DecidableEq

/-- The externally-owned record model: person and family lookup by id, as
`ged4py` resolves record pointers. -/
structure RecordModel where
  person : Nat → Option Person
  family : Nat → Option Family

/-- The resolved family records of the `FAMS` links of a person, as
`sub_tags` returns them; unresolved pointers are skipped. -/
def famsOf (m : RecordModel) (p : Person) : List Family :=
  p.fams.filterMap m.family

/-- Shallow embedding of `LatexWriter._children`
(src/ged2doc/latex_writer.py, lines 532-539): the concatenation, over the
spousal families of the person in order, of the resolved `CHIL`
records; the empty list for a missing person. -/
def childrenOf (m : RecordModel) (person : Option Person) : List Person :=
  match person with
  | none => []
  | some p => (famsOf m p).flatMap (fun fam => fam.chil.filterMap m.person)

/-- Shallow embedding of `LatexWriter._commonChildren`
(src/ged2doc/latex_writer.py, lines 518-530): for every child `c1` of
`person1` and every child `c2` of `person2` with the same unique id, `c1` is
appended; the empty list if either person is missing. -/
def commonChildren (m : RecordModel) (person1 person2 : Option Person) :
    List Person :=
  match person1, person2 with
  | some p1, some p2 =>
    let childrenOfPerson1 := childrenOf m (some p1)
    let childrenOfPerson2 := childrenOf m (some p2)
    childrenOfPerson1.flatMap (fun c1 =>
      childrenOfPerson2.filterMap (fun c2 =>
        if c1.xref_id = c2.xref_id then some c1 else none))
  | _, _ => []

/-- Modelled from the spec: `writer._spouse` (module `ged2doc/writer.py` is
not under `src/`).  Per the spec a family has "up to two spouse references"
and a union pairs the person with the resolved spouse of one of its spousal
families, so the spouse of `person` in `fam` is the resolved spouse reference
of `fam` distinct from `person`, if any. -/
def spouseIn (m : RecordModel) (person : Person) (fam : Family) :
    Option Person :=
  ((fam.spouses.filter (fun i => i ≠ person.xref_id)).head?).bind m.person

/-- The `_sexName` lookup table built by `LatexWriter.__init__`
(src/ged2doc/latex_writer.py, lines 82-84), as the partial function a Python
`dict` lookup is: a key outside M/F raises, modelled by `none`. -/
def sexName (sex : String) : Option String :=
  if sex = "M" then some ("male")
  else if sex = "F" then some ("female")
  else none

/-- Shallow embedding of `LatexWriter._indent`
(src/ged2doc/latex_writer.py, lines 541-544). -/
def indentAt (gen : Int) : String :=
  if gen < 0 then ("    ") ++ String.join (List.replicate (gen.natAbs - 1) ("  "))
  else ("    ") ++ String.join (List.replicate gen.toNat ("  "))

/-- Shallow embedding of `LatexWriter._node`
(src/ged2doc/latex_writer.py, lines 546-555): a missing person renders as the
empty string; otherwise the genealogytree node line is produced, with the sex
label looked up in `_sexName` (`none` models the `KeyError` raised on an
unrecognized sex value) and the optional node id inserted. -/
def nodeOf (nodeType : String) (person : Option Person) (gen : Int)
    (nodeId : Option String) : Option String :=
  match person with
  | none => some ("")
  | some p => do
    let sex ← sexName p.sex
    match nodeId with
    | some nid =>
      pure (indentAt (gen + 1) ++ nodeType ++ "[" ++ sex ++ ", id=" ++ nid ++
        "]\x7b" ++ p.firstName ++ " " ++ p.surname ++ "\x7d\n")
    | none =>
      pure (indentAt (gen + 1) ++ nodeType ++ "[" ++ sex ++ "]\x7b" ++
        p.firstName ++ " " ++ p.surname ++ "\x7d\n")

mutual

/-- Shallow embedding of the `for fam in fams` loop of
`LatexWriter._addSpouses` (src/ged2doc/latex_writer.py, lines 482-497):
families whose spouse does not resolve are skipped, the first resolved spouse
is rendered inline (spouse node, person node, common children), and every
further resolved spouse opens a separate bracketed union.  `spouseNumber` and
`tree` are the loop variables.  The proof argument records that the loop is
only reached below the maximum generation. -/
def spousesLoop (m : RecordModel) (maxgen : Int) (person : Person) (gen : Int)
    (probant : Option String) (_h : gen < maxgen) (fams : List Family)
    (spouseNumber : Nat) (tree : String) : Option String :=
  match fams with
  | [] => some tree
  | fam :: rest =>
    match spouseIn m person fam with
    | none => spousesLoop m maxgen person gen probant _h rest spouseNumber tree
    | some spouse =>
      let n := spouseNumber + 1
      if n = 1 then do
        let a ← nodeOf ("p") (some spouse) gen none
        let b ← nodeOf ("g") (some person) gen probant
        let c ← addCommonChildren m maxgen (some person) (some spouse) (gen + 1)
        spousesLoop m maxgen person gen probant _h rest n (tree ++ a ++ b ++ c)
      else do
        let a ← nodeOf ("p") (some spouse) gen none
        let c ← addCommonChildren m maxgen (some person) (some spouse) (gen + 1)
        spousesLoop m maxgen person gen probant _h rest n
          (tree ++ indentAt gen ++ "union\x7b\n" ++ a ++ c ++ indentAt gen ++
            "\x7d\n")
termination_by ((maxgen + 1 - gen).toNat, 0, fams.length)
decreasing_by
  all_goals
    first
      | exact Prod.Lex.right _ (Prod.Lex.right _ (by simp))
      | exact Prod.Lex.left _ _ (by omega)
      | exact Prod.Lex.right _ (Prod.Lex.left _ _ (by omega))

/-- Shallow embedding of `LatexWriter._addSpouses`
(src/ged2doc/latex_writer.py, lines 473-502): above the maximum generation
nothing is emitted; at the maximum generation a single `g` node is emitted
with no recursion; below it the spousal families are walked by `spousesLoop`
and a bare `g` node is emitted if that loop produced nothing.  The result is
wrapped in a `child` group. -/
def addSpouses (m : RecordModel) (maxgen : Int) (person : Person) (gen : Int)
    (probant : Option String) : Option String :=
  if _h1 : gen > maxgen then some ("")
  else if _h2 : gen = maxgen then
    (nodeOf ("g") (some person) gen probant).map
      (fun t => indentAt gen ++ "child\x7b\n" ++ t ++ indentAt gen ++ "\x7d\n")
  else do
    let tree ← spousesLoop m maxgen person gen probant (by omega)
      (famsOf m person) 0 ("")
    let tree ← if tree.length = 0 then nodeOf ("g") (some person) gen probant
      else pure tree
    pure (indentAt gen ++ "child\x7b\n" ++ tree ++ indentAt gen ++ "\x7d\n")
termination_by ((maxgen + 1 - gen).toNat, 1, 0)
decreasing_by
  all_goals
    first
      | exact Prod.Lex.right _ (Prod.Lex.right _ (by simp))
      | exact Prod.Lex.left _ _ (by omega)
      | exact Prod.Lex.right _ (Prod.Lex.left _ _ (by omega))

/-- Shallow embedding of the `for child in commonChildren` loop of
`LatexWriter._addCommonChildren` (src/ged2doc/latex_writer.py, lines
510-514): at the maximum generation each child is a terminal `c` node,
otherwise each child is expanded by `addSpouses` at the same generation. -/
def childLoop (m : RecordModel) (maxgen : Int) (gen : Int)
    (children : List Person) (tree : String) : Option String :=
  match children with
  | [] => some tree
  | child :: rest =>
    if gen = maxgen then do
      let a ← nodeOf ("c") (some child) gen none
      childLoop m maxgen gen rest (tree ++ a)
    else do
      let a ← addSpouses m maxgen child gen none
      childLoop m maxgen gen rest (tree ++ a)
termination_by ((maxgen + 1 - gen).toNat, 2, children.length)
decreasing_by
  all_goals
    first
      | exact Prod.Lex.right _ (Prod.Lex.right _ (by simp))
      | exact Prod.Lex.left _ _ (by omega)
      | exact Prod.Lex.right _ (Prod.Lex.left _ _ (by omega))

/-- Shallow embedding of `LatexWriter._addCommonChildren`
(src/ged2doc/latex_writer.py, lines 504-516): nothing for a missing parent,
otherwise the common children of the two parents are rendered by
`childLoop`. -/
def addCommonChildren (m : RecordModel) (maxgen : Int)
    (person1 person2 : Option Person) (gen : Int) : Option String :=
  match person1, person2 with
  | some p1, some p2 => childLoop m maxgen gen (commonChildren m (some p1) (some p2)) ("")
  | _, _ => some ("")
termination_by ((maxgen + 1 - gen).toNat, 3, 0)
decreasing_by
  all_goals
    first
      | exact Prod.Lex.right _ (Prod.Lex.right _ (by simp))
      | exact Prod.Lex.left _ _ (by omega)
      | exact Prod.Lex.right _ (Prod.Lex.left _ _ (by omega))

end

/-- The resolved spouses of the spousal families of a person, in native order:
the sequence of spouses the `for fam in fams` loop of `_addSpouses` actually
encounters. -/
def resolvedSpouses (m : RecordModel) (p : Person) : List Person :=
  (famsOf m p).filterMap (spouseIn m p)

/-- The spouse loop of `_addSpouses` expressed over the already-resolved
spouse list; `spousesLoop_eq_processSpouses` below proves it equal to
`spousesLoop` over the family records. -/
def processSpouses (m : RecordModel) (maxgen : Int) (person : Person)
    (gen : Int) (probant : Option String) (spouses : List Person)
    (spouseNumber : Nat) (tree : String) : Option String :=
  match spouses with
  | [] => some tree
  | spouse :: rest =>
    let n := spouseNumber + 1
    if n = 1 then do
      let a ← nodeOf ("p") (some spouse) gen none
      let b ← nodeOf ("g") (some person) gen probant
      let c ← addCommonChildren m maxgen (some person) (some spouse) (gen + 1)
      processSpouses m maxgen person gen probant rest n (tree ++ a ++ b ++ c)
    else do
      let a ← nodeOf ("p") (some spouse) gen none
      let c ← addCommonChildren m maxgen (some person) (some spouse) (gen + 1)
      processSpouses m maxgen person gen probant rest n
        (tree ++ indentAt gen ++ "union\x7b\n" ++ a ++ c ++ indentAt gen ++
          "\x7d\n")

/-- The inline rendering `_addSpouses` produces for the first resolved
spouse: spouse node, person node, then the common children of the pair
expanded at the next generation. -/
def inlineFirst (m : RecordModel) (maxgen : Int) (p s : Person) (gen : Int)
    (probant : Option String) : Option String := do
  let a ← nodeOf ("p") (some s) gen none
  let b ← nodeOf ("g") (some p) gen probant
  let c ← addCommonChildren m maxgen (some p) (some s) (gen + 1)
  pure (a ++ b ++ c)

/-- The bracketed union branch `_addSpouses` produces for each later
resolved spouse: only the children common to `p` and that spouse appear in
it. -/
def unionBranch (m : RecordModel) (maxgen : Int) (p s : Person) (gen : Int) :
    Option String := do
  let a ← nodeOf ("p") (some s) gen none
  let c ← addCommonChildren m maxgen (some p) (some s) (gen + 1)
  pure (indentAt gen ++ "union\x7b\n" ++ a ++ c ++ indentAt gen ++ "\x7d\n")

/-- The bracketed union branches rendered for a list of later resolved
spouses, in order; fails as soon as one branch fails. -/
def unionBranches (m : RecordModel) (maxgen : Int) (p : Person) (gen : Int) :
    List Person → Option (List String)
  | [] => some []
  | s :: rest => do
    let u ← unionBranch m maxgen p s gen
    let us ← unionBranches m maxgen p gen rest
    pure (u :: us)

/-- Concatenation of a list of markup fragments in order. -/
def concatAll : List String → String
  | [] => ("")
  | s :: rest => s ++ concatAll rest

/-- Shallow embedding of the generator `_gencouples` inside
`LatexWriter._render_name_freq` (src/ged2doc/latex_writer.py, lines
354-361): for each index `i` below `(len + 1) // 2`, entry `2*i` is paired
with entry `2*i + 1` when the latter exists. -/
def gencouples (namefreq : List (String × Nat)) :
    List ((String × Nat) × Option (String × Nat)) :=
  (List.range ((namefreq.length + 1) / 2)).map
    (fun i => (namefreq.getD (2 * i) (("" : String), 0), namefreq[2 * i + 1]?))

/-- The placeholder applied to a blank name by the Python `or` fallback
(src/ged2doc/latex_writer.py, lines 371-373). -/
def displayName (n : String) : String := if n = "" then ("(-)") else n

/-- One rendered line of the name-frequency table: display name, count, and
percentage `100 * count / total`.  Python float division raises
`ZeroDivisionError` when `total` is zero, modelled by `none`. -/
def renderLine (total : ℚ) (nc : String × Nat) : Option (String × Nat × ℚ) :=
  if total = 0 then none
  else some (displayName nc.1, nc.2, 100 * (nc.2 : ℚ) / total)

/-- The line `_render_name_freq` displays for one table entry. -/
def freqLine (total : ℚ) (nc : String × Nat) : String × Nat × ℚ :=
  (displayName nc.1, nc.2, 100 * (nc.2 : ℚ) / total)

/-- Shallow embedding of `LatexWriter._render_name_freq`
(src/ged2doc/latex_writer.py, lines 349-378), abstracted from LaTeX syntax
to the sequence of rendered (name, count, percentage) lines: `total` is the
floating-point sum of all counts, the couples produced by `_gencouples` are
walked in order, the first member of each couple is always rendered and the
second one exactly when present. -/
def render_name_freq (freq_table : List (String × Nat)) :
    Option (List (String × Nat × ℚ)) :=
  let total : ℚ := ((freq_table.map (fun nc => nc.2)).sum : Nat)
  (gencouples freq_table).foldlM
    (fun acc row => do
      let l1 ← renderLine total row.1
      match row.2 with
      | some nc2 => do
        let l2 ← renderLine total nc2
        pure (acc ++ [l1, l2])
      | none => pure (acc ++ [l1]))
    []

/-- The lines one couple contributes to the rendered name-frequency table. -/
def rowLines (total : ℚ) (row : (String × Nat) × Option (String × Nat)) :
    List (String × Nat × ℚ) :=
  match row.2 with
  | some nc2 => [freqLine total row.1, freqLine total nc2]
  | none => [freqLine total row.1]

/-- Concrete individual: a probant with two spousal families. -/
def wP1 : Person := ⟨1, "M", "John", "Stone", [1, 2]⟩

/-- Concrete individual: first spouse of `wP1`. -/
def wP2 : Person := ⟨2, "F", "Jane", "Stone", [1]⟩

/-- Concrete individual: second spouse of `wP1`. -/
def wP3 : Person := ⟨3, "F", "Mary", "Stone", [2]⟩

/-- Concrete individual: child of `wP1` and `wP2`. -/
def wC11 : Person := ⟨11, "M", "Tom", "Stone", []⟩

/-- Concrete individual: child of `wP1` and `wP3`. -/
def wC12 : Person := ⟨12, "F", "Ann", "Stone", []⟩

/-- Concrete family of `wP1` and `wP2`. -/
def wFam1 : Family := ⟨[1, 2], [11]⟩

/-- Concrete family of `wP1` and `wP3`. -/
def wFam2 : Family := ⟨[1, 3], [12]⟩

/-- A concrete record model with one person married twice, each family with
its own child. -/
def wModel : RecordModel where
  person := fun i =>
    if i = 1 then some wP1 else if i = 2 then some wP2
    else if i = 3 then some wP3 else if i = 11 then some wC11
    else if i = 12 then some wC12 else none
  family := fun i =>
    if i = 1 then some wFam1 else if i = 2 then some wFam2 else none

/-- Concrete individual whose single spousal family lists one child. -/
def dP1 : Person := ⟨1, "M", "Pat", "One", [1]⟩

/-- Concrete individual with two spousal families, both listing the same
child id. -/
def dP2 : Person := ⟨2, "F", "Pam", "Two", [2, 3]⟩

/-- Concrete individual appearing as a child in three families. -/
def dC10 : Person := ⟨10, "M", "Kim", "One", []⟩

/-- Family of `dP1` listing child 10. -/
def dFam1 : Family := ⟨[1, 2], [10]⟩

/-- First family of `dP2` listing child 10. -/
def dFam2 : Family := ⟨[1, 2], [10]⟩

/-- Second family of `dP2`, again listing child 10. -/
def dFam3 : Family := ⟨[2], [10]⟩

/-- A concrete record model in which the child lists of `dP2` repeat an id, so
`_commonChildren dP1 dP2` emits the same child twice. -/
def dModel : RecordModel where
  person := fun i =>
    if i = 1 then some dP1 else if i = 2 then some dP2
    else if i = 10 then some dC10 else none
  family := fun i =>
    if i = 1 then some dFam1 else if i = 2 then some dFam2
    else if i = 3 then some dFam3 else none

/-- Fitting specification of `resize` with `reduce_only=False` on positive
boxes: the call succeeds, preserves the aspect ratio exactly, fits the bound
and touches it in at least one dimension, following the two scaling formulas
of the source. -/
theorem resize_fit_spec (size max_size : ℚ × ℚ)
    (hsw : 0 < size.1) (hsh : 0 < size.2)
    (_hmw : 0 < max_size.1) (_hmh : 0 < max_size.2) :
    ∃ w h, resize size max_size false = some (w, h) ∧
      w * size.2 = h * size.1 ∧
      w ≤ max_size.1 ∧ h ≤ max_size.2 ∧
      ((h = max_size.2 ∧ w = (max_size.2 * size.1) / size.2) ∨
        ((max_size.2 * size.1) / size.2 > max_size.1 ∧
          w = max_size.1 ∧ h = (max_size.1 * size.2) / size.1)) := by
  unfold resize
  simp only [Bool.false_eq_true, false_and, if_false, if_neg hsh.ne']
  by_cases hw : (max_size.2 * size.1) / size.2 > max_size.1
  · refine ⟨max_size.1, (max_size.1 * size.2) / size.1, ?_, ?_, le_refl _, ?_, ?_⟩
    · simp [hw, hsw.ne']
    · field_simp
    · rw [div_le_iff₀ hsw]
      rw [gt_iff_lt, lt_div_iff₀ hsh] at hw
      linarith
    · exact Or.inr ⟨hw, rfl, rfl⟩
  · refine ⟨(max_size.2 * size.1) / size.2, max_size.2, ?_, ?_, ?_, le_refl _, ?_⟩
    · simp [hw]
    · field_simp
    · exact not_lt.mp hw
    · exact Or.inl ⟨rfl, rfl⟩

/-- C4 counterexample: a size with zero width and positive height does not
make `resize` fail at all — with `reduce_only=False` it silently returns
width `0` and the bounding height, and with `reduce_only=True` it returns the
size unchanged.  This refutes the claim that every zero-width-or-height size
fails with an `InvalidDimension` error for both values of `reduce_only`. -/
theorem resize_zero_width_no_error :
    resize ((0 : ℚ), 3) (5, 5) false = some (0, 5) ∧
    resize ((0 : ℚ), 3) (5, 5) true = some (0, 3) ∧
    resize ((0 : ℚ), 3) (5, 5) false ≠ none ∧
    resize ((0 : ℚ), 3) (5, 5) true ≠ none := by
  have h1 : resize ((0 : ℚ), 3) (5, 5) false = some (0, 5) := by norm_num [resize]
  have h2 : resize ((0 : ℚ), 3) (5, 5) true = some (0, 3) := by norm_num [resize]
  exact ⟨h1, h2, by rw [h1]; exact Option.some_ne_none _,
    by rw [h2]; exact Option.some_ne_none _⟩

/-- C4 (amended): `resize` has no `InvalidDimension` error.  A zero height
makes it fail with a division-by-zero error whenever the reduce-only early
return does not apply; a zero width never fails: with `reduce_only=False` and
a nonnegative width bound the call silently returns `(0, max_size.height)`,
and with `reduce_only=True` a fitting size is returned unchanged. -/
theorem resize_degenerate_behavior (size max_size : ℚ × ℚ) :
    (size.2 = 0 → resize size max_size false = none) ∧
    (size.2 = 0 → ¬(size.1 ≤ max_size.1 ∧ size.2 ≤ max_size.2) →
      resize size max_size true = none) ∧
    (size.1 = 0 → size.2 ≠ 0 → 0 ≤ max_size.1 →
      resize size max_size false = some (0, max_size.2)) ∧
    (size.1 = 0 → size.1 ≤ max_size.1 → size.2 ≤ max_size.2 →
      resize size max_size true = some size) := by
  refine ⟨?_, ?_, ?_, ?_⟩
  · intro h0
    simp [resize, h0]
  · intro h0 hnofit
    rw [resize, if_neg (by simp [hnofit]), if_pos h0]
  · intro hw0 hh0 hm
    rw [resize, if_neg (by simp), if_neg hh0]
    simp only [hw0, mul_zero, zero_div]
    rw [if_neg (by simpa using hm)]
  · intro _ h1 h2
    rw [resize, if_pos ⟨rfl, h1, h2⟩]

/-- C4 witness for `resize_degenerate_behavior` at `size = (0, 3)`,
`max_size = (5, 5)`. -/
theorem resize_degenerate_behavior_witness :
    (((0 : ℚ), (3 : ℚ)).2 ≠ 0 ∧ ((0 : ℚ), (3 : ℚ)).1 = 0 ∧
      (0 : ℚ) ≤ (((5 : ℚ), (5 : ℚ)) : ℚ × ℚ).1) ∧
    (resize ((0 : ℚ), 3) (5, 5) false = some (0, 5) ∧
      resize ((0 : ℚ), 3) (5, 5) true = some ((0 : ℚ), 3)) :=
  ⟨⟨by norm_num, by norm_num, by norm_num⟩,
    ⟨(resize_degenerate_behavior ((0 : ℚ), 3) (5, 5)).2.2.1 (by norm_num)
        (by norm_num) (by norm_num),
      (resize_degenerate_behavior ((0 : ℚ), 3) (5, 5)).2.2.2 (by norm_num)
        (by norm_num) (by norm_num)⟩⟩

/-- C5: for positive boxes and `reduce_only=False`, `resize` succeeds, the
result has exactly the aspect ratio of the input (cross-multiplied),
fits the bound, and attains it in at least one dimension: either the height
equals `max_size.height` with width `max_size.height * size.width /
size.height`, or that width exceeds `max_size.width` and instead the width
equals `max_size.width` with height `max_size.width * size.height /
size.width`. -/
theorem resize_no_reduce_fit (size max_size : ℚ × ℚ)
    (hsw : 0 < size.1) (hsh : 0 < size.2)
    (hmw : 0 < max_size.1) (hmh : 0 < max_size.2) :
    ∃ w h, resize size max_size false = some (w, h) ∧
      w * size.2 = h * size.1 ∧
      w ≤ max_size.1 ∧ h ≤ max_size.2 ∧
      ((h = max_size.2 ∧ w = (max_size.2 * size.1) / size.2) ∨
        ((max_size.2 * size.1) / size.2 > max_size.1 ∧
          w = max_size.1 ∧ h = (max_size.1 * size.2) / size.1)) :=
  resize_fit_spec size max_size hsw hsh hmw hmh

/-- C5 witness for `resize_no_reduce_fit` at `size = (4, 2)`,
`max_size = (2, 2)`. -/
theorem resize_no_reduce_fit_witness :
    ((0 : ℚ) < 4 ∧ (0 : ℚ) < 2) ∧
    (∃ w h, resize ((4 : ℚ), 2) (2, 2) false = some (w, h) ∧
      w * ((4 : ℚ), (2 : ℚ)).2 = h * ((4 : ℚ), (2 : ℚ)).1 ∧
      w ≤ 2 ∧ h ≤ 2 ∧
      ((h = 2 ∧ w = ((2 : ℚ) * 4) / 2) ∨
        (((2 : ℚ) * 4) / 2 > 2 ∧ w = 2 ∧ h = ((2 : ℚ) * 2) / 4))) :=
  ⟨⟨by norm_num, by norm_num⟩,
    resize_no_reduce_fit ((4 : ℚ), 2) (2, 2) (by norm_num) (by norm_num)
      (by norm_num) (by norm_num)⟩

/-- C6: reducing an already-reduced box is the identity — feeding the result
of `resize` with `reduce_only=False` back into `resize` with
`reduce_only=True` returns it unchanged, for positive boxes. -/
theorem resize_reduce_idempotent (size max_size : ℚ × ℚ)
    (hsw : 0 < size.1) (hsh : 0 < size.2)
    (hmw : 0 < max_size.1) (hmh : 0 < max_size.2) :
    (resize size max_size false).bind (fun r => resize r max_size true) =
      resize size max_size false := by
  obtain ⟨w, h, heq, _, hw, hh, _⟩ := resize_fit_spec size max_size hsw hsh hmw hmh
  rw [heq]
  show resize (w, h) max_size true = some (w, h)
  rw [resize, if_pos ⟨rfl, hw, hh⟩]

/-- C6 witness for `resize_reduce_idempotent` at `size = (4, 2)`,
`max_size = (2, 2)`. -/
theorem resize_reduce_idempotent_witness :
    ((0 : ℚ) < 4 ∧ (0 : ℚ) < 2) ∧
    (resize ((4 : ℚ), 2) (2, 2) false).bind (fun r => resize r (2, 2) true) =
      resize ((4 : ℚ), 2) (2, 2) false :=
  ⟨⟨by norm_num, by norm_num⟩,
    resize_reduce_idempotent ((4 : ℚ), 2) (2, 2) (by norm_num) (by norm_num)
      (by norm_num) (by norm_num)⟩

/-- C7: writer construction silently normalizes its configuration: any paper
format outside the supported set becomes a4paper (a supported one is kept),
any page layout outside portrait/landscape becomes portrait, and the tree
scale always lands in the interval from 1/100 to 2; in particular the
scenarios bogus-format, bogus-layout, scale 5 and scale 0 normalize to
a4paper, portrait, 2 and 1/100 respectively. -/
theorem latexWriterInit_normalizes :
    (∀ pf po ts,
      (pf ∉ supportedFormats → (latexWriterInit pf po ts).paper_format = "a4paper") ∧
      (pf ∈ supportedFormats → (latexWriterInit pf po ts).paper_format = pf) ∧
      (po ∉ supportedOrientations →
        (latexWriterInit pf po ts).paper_orientation = "portrait") ∧
      (1 / 100 ≤ (latexWriterInit pf po ts).tree_scale ∧
        (latexWriterInit pf po ts).tree_scale ≤ 2)) ∧
    (latexWriterInit ("bogus") ("bogus") 5).paper_format = "a4paper" ∧
    (latexWriterInit ("bogus") ("bogus") 5).paper_orientation = "portrait" ∧
    (latexWriterInit ("bogus") ("bogus") 5).tree_scale = 2 ∧
    (latexWriterInit ("bogus") ("bogus") 0).tree_scale = 1 / 100 := by
  have hbf : "bogus" ∉ supportedFormats := by decide
  have hbo : "bogus" ∉ supportedOrientations := by decide
  refine ⟨?_, by simp [latexWriterInit, hbf],
    by simp [latexWriterInit, hbo],
    by norm_num [latexWriterInit],
    by norm_num [latexWriterInit]⟩
  intro pf po ts
  refine ⟨fun hpf => ?_, fun hpf => ?_, fun hpo => ?_, ?_, ?_⟩
  · simp [latexWriterInit, hpf]
  · simp [latexWriterInit, hpf]
  · simp [latexWriterInit, hpo]
  · simp only [latexWriterInit]
    split_ifs <;> linarith
  · simp only [latexWriterInit]
    split_ifs <;> linarith

/-- C7 witness for `latexWriterInit_normalizes`, discharging the
non-membership hypotheses at the string bogus. -/
theorem latexWriterInit_normalizes_witness :
    ("bogus" ∉ supportedFormats ∧ "bogus" ∉ supportedOrientations ∧
      "a4paper" ∈ supportedFormats) ∧
    ((latexWriterInit ("bogus") ("bogus") 5).paper_format = "a4paper" ∧
      (latexWriterInit ("bogus") ("bogus") 5).paper_orientation = "portrait" ∧
      (latexWriterInit ("a4paper") ("bogus") 5).paper_format = "a4paper") :=
  ⟨⟨by decide, by decide, by decide⟩,
    ⟨(latexWriterInit_normalizes.1 ("bogus") ("bogus") 5).1 (by decide),
      (latexWriterInit_normalizes.1 ("bogus") ("bogus") 5).2.2.1 (by decide),
      (latexWriterInit_normalizes.1 ("a4paper") ("bogus") 5).2.1 (by decide)⟩⟩

/-- C8: a caller-supplied writable stream is never closed by the writer on
any exit path, while a path-supplied output, opened by the writer itself, is
closed on every exit path, success or failure. -/
theorem output_close_policy :
    ∀ r, outputClosedAtExit OutputKind.stream r = false ∧
      outputClosedAtExit OutputKind.path r = true := by
  intro r
  cases r <;> exact ⟨rfl, rfl⟩

/-- C9: rendering a tree node for a person whose sex value is outside the
recognized set M/F is a lookup failure that aborts (the `KeyError` of the
`_sexName` dict lookup, modelled by `none`), not a silent degradation to a
neutral label. -/
theorem nodeOf_unknown_sex_aborts (t : String) (p : Person) (gen : Int)
    (nodeId : Option String) (h1 : p.sex ≠ "M") (h2 : p.sex ≠ "F") :
    nodeOf t (some p) gen nodeId = none := by
  cases nodeId <;> simp [nodeOf, sexName, h1, h2]

/-- C9 witness for `nodeOf_unknown_sex_aborts` at a concrete person whose
sex value is the unrecognized string U. -/
theorem nodeOf_unknown_sex_aborts_witness :
    ((⟨99, "U", "Alex", "Grey", []⟩ : Person).sex ≠ "M" ∧
      (⟨99, "U", "Alex", "Grey", []⟩ : Person).sex ≠ "F") ∧
    nodeOf ("g") (some (⟨99, "U", "Alex", "Grey", []⟩ : Person)) 0 none = none :=
  ⟨⟨by decide, by decide⟩,
    nodeOf_unknown_sex_aborts ("g") (⟨99, "U", "Alex", "Grey", []⟩ : Person) 0
      none (by decide) (by decide)⟩

/-- C2: descendant expansion at the generation equal to the configured
maximum emits a single terminal node for the person, probant-marked when
applicable, wrapped in its child group — the right-hand side does not depend
on the record model, so no recursion into spouses or children happens
regardless of the children present in the model; in particular, with a
maximum of zero generations the probant subtree is the single node produced
at generation zero. -/
theorem addSpouses_at_max_is_single_node :
    (∀ (m : RecordModel) (maxgen : Int) (p : Person) (probant : Option String),
      addSpouses m maxgen p maxgen probant =
        (nodeOf ("g") (some p) maxgen probant).map
          (fun t => indentAt maxgen ++ "child\x7b\n" ++ t ++ indentAt maxgen ++
            "\x7d\n")) ∧
    (∀ (m : RecordModel) (p : Person),
      addSpouses m 0 p 0 (some ("probant")) =
        (nodeOf ("g") (some p) 0 (some ("probant"))).map
          (fun t => indentAt 0 ++ "child\x7b\n" ++ t ++ indentAt 0 ++
            "\x7d\n")) := by
  have key : ∀ (m : RecordModel) (maxgen : Int) (p : Person)
      (probant : Option String),
      addSpouses m maxgen p maxgen probant =
        (nodeOf ("g") (some p) maxgen probant).map
          (fun t => indentAt maxgen ++ "child\x7b\n" ++ t ++ indentAt maxgen ++
            "\x7d\n") := by
    intro m maxgen p probant
    rw [addSpouses, dif_neg (by omega : ¬maxgen > maxgen), dif_pos rfl]
  exact ⟨key, fun m p => key m 0 p (some ("probant"))⟩

/-- A singleton-or-empty inner pass of `_commonChildren`: when the wanted id
does not occur in the second child list, nothing is appended. -/
theorem filterMap_id_match_nil (c1 : Person) (L2 : List Person)
    (h : c1.xref_id ∉ L2.map Person.xref_id) :
    L2.filterMap (fun c2 =>
      if c1.xref_id = c2.xref_id then some c1 else none) = [] := by
  induction L2 with
  | nil => rfl
  | cons c2 t ih =>
    simp only [List.map_cons, List.mem_cons] at h
    push_neg at h
    simp only [List.filterMap_cons, if_neg h.1]
    exact ih h.2

/-- When the second child list has pairwise-distinct ids, the inner pass of
`_commonChildren` appends the first-list child exactly once if its id occurs
there and not at all otherwise. -/
theorem filterMap_id_match_of_nodup (c1 : Person) (L2 : List Person)
    (h : (L2.map Person.xref_id).Nodup) :
    L2.filterMap (fun c2 =>
      if c1.xref_id = c2.xref_id then some c1 else none) =
      if (L2.map Person.xref_id).contains c1.xref_id then [c1] else [] := by
  induction L2 with
  | nil => rfl
  | cons c2 t ih =>
    simp only [List.map_cons, List.nodup_cons] at h
    obtain ⟨hnotin, ht⟩ := h
    by_cases he : c1.xref_id = c2.xref_id
    · simp only [List.filterMap_cons, if_pos he]
      rw [filterMap_id_match_nil c1 t (he ▸ hnotin)]
      simp [List.contains_cons, he]
    · simp only [List.filterMap_cons, if_neg he]
      rw [ih ht]
      simp only [List.map_cons, List.contains_cons]
      have : (c1.xref_id == c2.xref_id) = false := by
        simpa using he
      rw [this, Bool.false_or]

/-- The outer pass of `_commonChildren` as an ordered filter of the first
child list, valid whenever the second list has pairwise-distinct ids. -/
theorem flatMap_id_match_filter (L1 L2 : List Person)
    (h2 : (L2.map Person.xref_id).Nodup) :
    L1.flatMap (fun c1 => L2.filterMap (fun c2 =>
        if c1.xref_id = c2.xref_id then some c1 else none)) =
      L1.filter (fun c => (L2.map Person.xref_id).contains c.xref_id) := by
  induction L1 with
  | nil => rfl
  | cons c t ih =>
    simp only [List.flatMap_cons, List.filter_cons]
    rw [filterMap_id_match_of_nodup c L2 h2, ih]
    cases hc : (L2.map Person.xref_id).contains c.xref_id <;>
      simp only [hc, Bool.false_eq_true, if_false, if_true,
        List.nil_append, List.singleton_append]

/-- C1 (amended): when the child lists of the two parents each carry
pairwise-distinct ids, `_commonChildren` returns exactly the ordered
intersection of the two lists compared by unique id — the list of the first
parent filtered by membership of the id in the list of the second parent,
hence in first-parent order — and the result has no duplicate ids.  (When a
child id occurs more than once in a list, the code instead appends
one copy per matching pair, see `commonChildren_duplicate_ids`.) -/
theorem commonChildren_ordered_intersection (m : RecordModel) (p1 p2 : Person)
    (h1 : ((childrenOf m (some p1)).map Person.xref_id).Nodup)
    (h2 : ((childrenOf m (some p2)).map Person.xref_id).Nodup) :
    commonChildren m (some p1) (some p2) =
      (childrenOf m (some p1)).filter
        (fun c => ((childrenOf m (some p2)).map Person.xref_id).contains
          c.xref_id) ∧
    ((commonChildren m (some p1) (some p2)).map Person.xref_id).Nodup := by
  have key : commonChildren m (some p1) (some p2) =
      (childrenOf m (some p1)).filter
        (fun c => ((childrenOf m (some p2)).map Person.xref_id).contains
          c.xref_id) := by
    show (childrenOf m (some p1)).flatMap _ = _
    exact flatMap_id_match_filter _ _ h2
  refine ⟨key, ?_⟩
  rw [key]
  exact h1.sublist (List.Sublist.map Person.xref_id (List.filter_sublist _))

/-- C1 witness for `commonChildren_ordered_intersection` on the concrete
model `wModel`: the parents `wP1` and `wP2` have duplicate-free child lists
and their common children are exactly the shared child `wC11`. -/
theorem commonChildren_ordered_intersection_witness :
    (((childrenOf wModel (some wP1)).map Person.xref_id).Nodup ∧
      ((childrenOf wModel (some wP2)).map Person.xref_id).Nodup) ∧
    (commonChildren wModel (some wP1) (some wP2) =
      (childrenOf wModel (some wP1)).filter
        (fun c => ((childrenOf wModel (some wP2)).map Person.xref_id).contains
          c.xref_id) ∧
    ((commonChildren wModel (some wP1) (some wP2)).map Person.xref_id).Nodup) :=
  ⟨⟨by decide, by decide⟩,
    commonChildren_ordered_intersection wModel wP1 wP2 (by decide) (by decide)⟩

/-- C1 counterexample: in `dModel` the child list of the second parent has the
id 10 twice (once per spousal family), and `_commonChildren` then returns the
same child twice — the claim that the result has no duplicate ids even when a
child id occurs more than once in a list of a parent is false. -/
theorem commonChildren_duplicate_ids :
    (commonChildren dModel (some dP1) (some dP2)).map Person.xref_id =
      [10, 10] ∧
    ¬ ((commonChildren dModel (some dP1) (some dP2)).map Person.xref_id).Nodup :=
  ⟨by decide, by decide⟩

/-- Every indentation string starts with four blanks. -/
theorem indentAt_length (gen : Int) : 4 ≤ (indentAt gen).length := by
  unfold indentAt
  split <;>
    (rw [String.length_append]
     have h4 : ("    ").length = 4 := rfl
     omega)

/-- A node rendered for a present person is never the empty string. -/
theorem nodeOf_some_length_pos (t : String) (p : Person) (gen : Int)
    (i : Option String) (s : String) (h : nodeOf t (some p) gen i = some s) :
    0 < s.length := by
  simp only [nodeOf] at h
  cases hx : sexName p.sex with
  | none => rw [hx] at h; simp at h
  | some sx =>
    rw [hx] at h
    have hind := indentAt_length (gen + 1)
    cases i <;>
      simp only [Option.bind_eq_bind, Option.some_bind, Option.pure_def,
        Option.some.injEq] at h <;>
      (rw [← h]; simp only [String.length_append]; omega)

/-- The `for fam in fams` loop of `_addSpouses` only looks at the resolved
spouses: walking the family records equals walking the resolved spouse
list. -/
theorem spousesLoop_eq_processSpouses (m : RecordModel) (maxgen : Int)
    (person : Person) (gen : Int) (probant : Option String)
    (hp : gen < maxgen) :
    ∀ (fams : List Family) (k : Nat) (tree : String),
      spousesLoop m maxgen person gen probant hp fams k tree =
        processSpouses m maxgen person gen probant
          (fams.filterMap (spouseIn m person)) k tree := by
  intro fams
  induction fams with
  | nil => intro k tree; rw [spousesLoop]; simp [processSpouses]
  | cons fam rest ih =>
    intro k tree
    rw [spousesLoop]
    cases hs : spouseIn m person fam with
    | none =>
      simp only [hs, List.filterMap_cons]
      exact ih k tree
    | some s =>
      simp only [hs, List.filterMap_cons]
      rw [processSpouses]
      by_cases hk : k + 1 = 1
      · simp only [if_pos hk]
        cases ha : nodeOf ("p") (some s) gen none
        · simp [ha]
        · cases hb : nodeOf ("g") (some person) gen probant
          · simp [ha, hb]
          · cases hc : addCommonChildren m maxgen (some person) (some s)
                (gen + 1)
            · simp [ha, hb, hc]
            · simp only [Option.bind_eq_bind, Option.some_bind]
              exact ih _ _
      · simp only [if_neg hk]
        cases ha : nodeOf ("p") (some s) gen none
        · simp [ha]
        · cases hc : addCommonChildren m maxgen (some person) (some s) (gen + 1)
          · simp [ha, hc]
          · simp only [Option.bind_eq_bind, Option.some_bind]
            exact ih _ _

/-- After the first resolved spouse has been handled, the rest of the spouse
walk renders one bracketed union branch per remaining spouse, appended in
order. -/
theorem processSpouses_ge_one (m : RecordModel) (maxgen : Int)
    (person : Person) (gen : Int) (probant : Option String) :
    ∀ (rest : List Person) (k : Nat) (tree : String), k ≠ 0 →
      processSpouses m maxgen person gen probant rest k tree =
        (unionBranches m maxgen person gen rest).map
          (fun brs => tree ++ concatAll brs) := by
  intro rest
  induction rest with
  | nil =>
    intro k tree hk
    simp [processSpouses, unionBranches, concatAll]
  | cons s rest ih =>
    intro k tree hk
    rw [processSpouses]
    have hk1 : ¬(k + 1 = 1) := by omega
    simp only [if_neg hk1]
    cases ha : nodeOf ("p") (some s) gen none
    · simp [unionBranches, unionBranch, ha]
    · cases hc : addCommonChildren m maxgen (some person) (some s) (gen + 1)
      · simp [unionBranches, unionBranch, ha, hc]
      · simp only [Option.bind_eq_bind, Option.some_bind]
        rw [ih (k + 1) _ (by omega)]
        cases hm : unionBranches m maxgen person gen rest
        · simp [unionBranches, unionBranch, ha, hc, hm]
        · simp [unionBranches, unionBranch, ha, hc, hm, concatAll,
            String.append_assoc]

/-- C3: below the maximum generation, `_addSpouses` renders its person as the
claim describes.  If no spousal family link resolves to a spouse, a bare node
for the person is emitted (probant-marked if applicable) instead of a union.
Otherwise the first resolved spouse is rendered inline — spouse node, person
node (probant-marked if applicable), then the common children of that pair
expanded at the next generation — and each subsequent resolved spouse
produces a separate bracketed union branch holding only the children common
to the person and that specific spouse. -/
theorem addSpouses_below_max (m : RecordModel) (maxgen : Int) (p : Person)
    (gen : Int) (probant : Option String) (h : gen < maxgen) :
    (resolvedSpouses m p = [] →
      addSpouses m maxgen p gen probant =
        (nodeOf ("g") (some p) gen probant).map
          (fun t => indentAt gen ++ "child\x7b\n" ++ t ++ indentAt gen ++
            "\x7d\n")) ∧
    (∀ s0 rest, resolvedSpouses m p = s0 :: rest →
      addSpouses m maxgen p gen probant =
        (do
          let f ← inlineFirst m maxgen p s0 gen probant
          let brs ← unionBranches m maxgen p gen rest
          pure (indentAt gen ++ "child\x7b\n" ++ f ++ concatAll brs ++
            indentAt gen ++ "\x7d\n"))) := by
  have hrw : (famsOf m p).filterMap (spouseIn m p) = resolvedSpouses m p := rfl
  constructor
  · intro hrs
    rw [addSpouses, dif_neg (by omega : ¬gen > maxgen),
      dif_neg (by omega : ¬gen = maxgen),
      spousesLoop_eq_processSpouses m maxgen p gen probant (by omega), hrw, hrs]
    simp only [processSpouses, Option.some_bind]
    cases hn : nodeOf ("g") (some p) gen probant <;> simp [hn]
  · intro s0 rest hrs
    rw [addSpouses, dif_neg (by omega : ¬gen > maxgen),
      dif_neg (by omega : ¬gen = maxgen),
      spousesLoop_eq_processSpouses m maxgen p gen probant (by omega), hrw, hrs,
      processSpouses]
    simp only [Nat.zero_add, if_pos rfl]
    cases ha : nodeOf ("p") (some s0) gen none
    · simp [inlineFirst, ha]
    · cases hb : nodeOf ("g") (some p) gen probant
      · simp [inlineFirst, ha, hb]
      · cases hc : addCommonChildren m maxgen (some p) (some s0) (gen + 1)
        · simp [inlineFirst, ha, hb, hc]
        · simp only [Option.bind_eq_bind, Option.some_bind]
          rw [processSpouses_ge_one m maxgen p gen probant rest 1 _
            (by omega)]
          cases hm : unionBranches m maxgen p gen rest
          · simp [inlineFirst, ha, hb, hc, hm]
          · rename_i a b c brs
            have hlen : 0 < a.length := nodeOf_some_length_pos _ _ _ _ _ ha
            have hlen0 : a.length ≠ 0 := by omega
            simp [inlineFirst, ha, hb, hc, hm, hlen0, String.append_assoc]

/-- C3 witness for `addSpouses_below_max` on `wModel`: the probant `wP1` at
generation 0 with maximum 1 — two resolved spouses, each with a distinct
child. -/
theorem addSpouses_below_max_witness :
    ((0 : Int) < 1) ∧
    ((resolvedSpouses wModel wP1 = [] →
      addSpouses wModel 1 wP1 0 (some ("probant")) =
        (nodeOf ("g") (some wP1) 0 (some ("probant"))).map
          (fun t => indentAt 0 ++ "child\x7b\n" ++ t ++ indentAt 0 ++
            "\x7d\n")) ∧
    (∀ s0 rest, resolvedSpouses wModel wP1 = s0 :: rest →
      addSpouses wModel 1 wP1 0 (some ("probant")) =
        (do
          let f ← inlineFirst wModel 1 wP1 s0 0 (some ("probant"))
          let brs ← unionBranches wModel 1 wP1 0 rest
          pure (indentAt 0 ++ "child\x7b\n" ++ f ++ concatAll brs ++
            indentAt 0 ++ "\x7d\n")))) :=
  ⟨by decide,
    addSpouses_below_max wModel 1 wP1 0 (some ("probant")) (by decide)⟩

/-- `_gencouples` of the empty table yields no couples. -/
theorem gencouples_nil : gencouples [] = [] := by
  simp [gencouples]

/-- `_gencouples` of a one-entry table yields one couple with an absent
second member. -/
theorem gencouples_singleton (x : String × Nat) :
    gencouples [x] = [(x, none)] := by
  simp [gencouples]
  rfl

/-- `_gencouples` pairs the first two entries and recurses on the rest: the
indexed pairing of the source equals two-at-a-time chunking. -/
theorem gencouples_cons2 (x y : String × Nat) (l : List (String × Nat)) :
    gencouples (x :: y :: l) = (x, some y) :: gencouples l := by
  have hlen : ((x :: y :: l).length + 1) / 2 = (l.length + 1) / 2 + 1 := by
    simp only [List.length_cons]
    omega
  rw [gencouples, gencouples, hlen, List.range_succ_eq_map, List.map_cons,
    List.map_map]
  congr 1
  · norm_num
  · apply List.map_congr_left
    intro i _
    have h2 : 2 * Nat.succ i = 2 * i + 1 + 1 := by omega
    have h3 : 2 * Nat.succ i + 1 = (2 * i + 1) + 1 + 1 := by omega
    simp only [Function.comp_apply, h2, h3, List.getD_cons_succ,
      List.getElem?_cons_succ]

/-- Flattening the couples of a table back into lines recovers one rendered
line per table entry, in order. -/
theorem rowLines_flatten (total : ℚ) : ∀ (ft : List (String × Nat)),
    (gencouples ft).flatMap (rowLines total) = ft.map (freqLine total)
  | [] => by simp [gencouples_nil]
  | [x] => by simp [gencouples_singleton, rowLines]
  | x :: y :: rest => by
    rw [gencouples_cons2]
    simp only [List.flatMap_cons, List.map_cons]
    rw [rowLines_flatten total rest]
    simp [rowLines]

/-- With a nonzero total, one rendered line succeeds and is that entry as a
display line. -/
theorem renderLine_eq (total : ℚ) (htot : total ≠ 0) (nc : String × Nat) :
    renderLine total nc = some (freqLine total nc) := by
  simp [renderLine, freqLine, htot]

/-- The fold of `_render_name_freq` flattens the couples into the
accumulated line list, as long as the total is nonzero. -/
theorem render_fold_eq (total : ℚ) (htot : total ≠ 0) :
    ∀ (couples : List ((String × Nat) × Option (String × Nat)))
      (acc : List (String × Nat × ℚ)),
      couples.foldlM (fun acc row => do
          let l1 ← renderLine total row.1
          match row.2 with
          | some nc2 => do
            let l2 ← renderLine total nc2
            pure (acc ++ [l1, l2])
          | none => pure (acc ++ [l1])) acc =
        some (acc ++ couples.flatMap (rowLines total)) := by
  intro couples
  induction couples with
  | nil => intro acc; simp
  | cons row rest ih =>
    intro acc
    rw [List.foldlM_cons]
    obtain ⟨r1, r2⟩ := row
    cases r2 with
    | none =>
      simp only [renderLine_eq total htot, Option.bind_eq_bind,
        Option.some_bind, Option.pure_def, rowLines] at ih ⊢
      rw [ih]
      simp [rowLines, List.append_assoc]
    | some nc2 =>
      simp only [renderLine_eq total htot, Option.bind_eq_bind,
        Option.some_bind, Option.pure_def, rowLines] at ih ⊢
      rw [ih]
      simp [rowLines, List.append_assoc]

/-- The rendered percentages of a table with nonzero total sum to exactly
100. -/
theorem sum_freq_percent (ft : List (String × Nat)) (total : ℚ)
    (heq : total = (((ft.map fun nc => nc.2).sum : Nat) : ℚ))
    (htot : total ≠ 0) :
    ((ft.map (freqLine total)).map (fun e => e.2.2)).sum = 100 := by
  rw [List.map_map]
  have hcongr : ft.map ((fun e : String × Nat × ℚ => e.2.2) ∘ freqLine total) =
      ft.map (fun nc => ((nc.2 : ℚ)) * (100 / total)) := by
    apply List.map_congr_left
    intro nc _
    simp only [Function.comp_apply, freqLine]
    ring
  rw [hcongr, List.sum_map_mul_right]
  have hsum : (ft.map fun nc => ((nc.2 : ℕ) : ℚ)).sum =
      (((ft.map fun nc => nc.2).sum : ℕ) : ℚ) := by
    rw [Nat.cast_list_sum, List.map_map]
    rfl
  rw [hsum, ← heq]
  field_simp

/-- C10 (amended): for a name-frequency table whose counts have nonzero sum,
the rendering displays every entry exactly once and in order — the rows pair
entry `2*i` with entry `2*i+1` via `_gencouples`, and flattening them yields
exactly one line per entry — each percentage being `100 * count / total` for
`total` the sum of all counts; consequently the displayed counts sum to the
supplied total and the displayed percentages sum to exactly 100.  (A
nonempty table whose counts sum to zero instead fails with a
division-by-zero error, see `render_name_freq_zero_total`.) -/
theorem render_name_freq_spec (ft : List (String × Nat))
    (hpos : 0 < (ft.map fun nc => nc.2).sum) :
    render_name_freq ft =
      some (ft.map (freqLine (((ft.map fun nc => nc.2).sum : Nat) : ℚ))) ∧
    ((ft.map (freqLine (((ft.map fun nc => nc.2).sum : Nat) : ℚ))).map
        (fun e => e.2.1)).sum = (ft.map fun nc => nc.2).sum ∧
    ((ft.map (freqLine (((ft.map fun nc => nc.2).sum : Nat) : ℚ))).map
        (fun e => e.2.2)).sum = 100 := by
  have htot : (((ft.map fun nc => nc.2).sum : Nat) : ℚ) ≠ 0 := by
    exact_mod_cast Nat.pos_iff_ne_zero.mp hpos
  refine ⟨?_, ?_, ?_⟩
  · rw [render_name_freq]
    rw [render_fold_eq _ htot (gencouples ft) [], rowLines_flatten]
    simp
  · rw [List.map_map]
    have : ft.map ((fun e : String × Nat × ℚ => e.2.1) ∘ freqLine
        (((ft.map fun nc => nc.2).sum : Nat) : ℚ)) = ft.map (fun nc => nc.2) := by
      apply List.map_congr_left
      intro nc _
      rfl
    rw [this]
  · exact sum_freq_percent ft _ rfl htot

/-- C10 witness for `render_name_freq_spec` on the concrete two-entry table
with counts 3 and 1 (the second name blank). -/
theorem render_name_freq_spec_witness :
    (0 < ([(("Anna" : String), 3), (("" : String), 1)].map
      fun nc => nc.2).sum) ∧
    (render_name_freq [(("Anna" : String), 3), (("" : String), 1)] =
      some ([(("Anna" : String), 3), (("" : String), 1)].map
        (freqLine ((([(("Anna" : String), 3), (("" : String), 1)].map
          fun nc => nc.2).sum : Nat) : ℚ))) ∧
    (([(("Anna" : String), 3), (("" : String), 1)].map
        (freqLine ((([(("Anna" : String), 3), (("" : String), 1)].map
          fun nc => nc.2).sum : Nat) : ℚ))).map (fun e => e.2.1)).sum =
      ([(("Anna" : String), 3), (("" : String), 1)].map fun nc => nc.2).sum ∧
    (([(("Anna" : String), 3), (("" : String), 1)].map
        (freqLine ((([(("Anna" : String), 3), (("" : String), 1)].map
          fun nc => nc.2).sum : Nat) : ℚ))).map (fun e => e.2.2)).sum = 100) :=
  ⟨by decide, render_name_freq_spec [(("Anna" : String), 3), (("" : String), 1)]
    (by decide)⟩

/-- C10 counterexample: a nonempty table whose counts sum to zero makes
`_render_name_freq` divide by zero (the rendering fails, modelled by `none`),
so nothing is displayed at all — the claim does not hold for every supplied
table. -/
theorem render_name_freq_zero_total :
    render_name_freq [(("a" : String), 0)] = none ∧
    ∀ L, render_name_freq [(("a" : String), 0)] ≠ some L := by
  have h : render_name_freq [(("a" : String), 0)] = none := by
    rw [render_name_freq]
    rw [gencouples_singleton]
    norm_num [renderLine, List.foldlM_cons]
  exact ⟨h, fun L => by rw [h]; simp⟩

end Ged2doc
